import Mathlib

/-
Shallow embedding of `src/github_action_toolkit/signal_handling.py`.

The module keeps three globals:
  _cancellation_handlers : list of zero-argument callbacks
  _original_handlers     : dict from signal to the previously installed disposition
  _cancellation_registered : bool
plus the process signal table that `signal.signal` reads and writes for the
two tracked signals SIGTERM and SIGINT.  All of that is gathered into one
state record, and each Python function becomes a pure state transformer.

A callback is modelled by the observable behaviour of one invocation: it
returns normally, raises an Exception with a given message, or raises a
BaseException (such as SystemExit) that is not an Exception.  Each carries a
numeric id so that invocation order and multiplicity can be stated.
-/

namespace SignalHandling

/-- The tracked signals: `signal.SIGTERM` and `signal.SIGINT`. -/
inductive Sig where
  | sigterm
  | sigint
deriving DecidableEq, Repr

/-- `signal.Signals(signum).name` for the tracked signals. -/
def sigName : Sig → String
  | .sigterm => "SIGTERM"
  | .sigint => "SIGINT"

/-- Observable behaviour of one invocation of a registered callback. -/
inductive HandlerOutcome where
  | ok
  | raisesException (msg : String)
  | raisesBaseException (msg : String)
deriving DecidableEq, Repr

/-- A registered callback: an id, and what happens when it is invoked. -/
structure Handler where
  id : Nat
  outcome : HandlerOutcome
deriving DecidableEq, Repr

/-- Whether an outcome is a BaseException that is not an Exception
(escapes the `except Exception` clause in the drain loop). -/
def isBaseRaise : HandlerOutcome → Bool
  | .raisesBaseException _ => true
  | _ => false

/-- A signal disposition visible to the Python runtime: `signal.SIG_DFL`,
`signal.SIG_IGN`, some Python callable, or the controller handler
`_handle_cancellation_signal` itself. -/
inductive PyHandler where
  | sigDfl
  | sigIgn
  | pyCallable (id : Nat)
  | cancellationSignalHandler
deriving DecidableEq, Repr

/-- The module state.  A disposition of `none` models the case where
`signal.signal` returned Python `None` (the previous handler was not
installed from Python and is not observable from the runtime). -/
structure CancellationState where
  cancellation_handlers : List Handler
  original_handlers : List (Sig × Option PyHandler)
  cancellation_registered : Bool
  termDisposition : Option PyHandler
  intDisposition : Option PyHandler
deriving DecidableEq, Repr

/-- The disposition currently installed for a tracked signal
(what `signal.getsignal` would return). -/
def getDisposition (s : CancellationState) : Sig → Option PyHandler
  | .sigterm => s.termDisposition
  | .sigint => s.intDisposition

/-- Install a disposition for a tracked signal (the write half of
`signal.signal(sig, h)`); the result is always observable. -/
def setDisposition (s : CancellationState) (sig : Sig) (h : PyHandler) : CancellationState :=
  match sig with
  | .sigterm => { s with termDisposition := some h }
  | .sigint => { s with intDisposition := some h }

/-- Python dict assignment `d[k] = v` on an insertion-ordered association
list: overwrite in place if the key is present, else append. -/
def dictSet : List (Sig × Option PyHandler) → Sig → Option PyHandler →
    List (Sig × Option PyHandler)
  | [], k, v => [(k, v)]
  | p :: rest, k, v => if p.1 = k then (k, v) :: rest else p :: dictSet rest k v

/-- Python dict lookup `d.get(k)` on the association list. -/
def dictLookup : List (Sig × Option PyHandler) → Sig → Option (Option PyHandler)
  | [], _ => none
  | p :: rest, k => if p.1 = k then some p.2 else dictLookup rest k

/-- The `for handler in _cancellation_handlers` loop of
`_handle_cancellation_signal`: returns the ids of the callbacks that were
invoked, the warnings emitted by the `except Exception` clause, and
`some msg` when a BaseException escaped the loop. -/
def drainHandlers : List Handler → List Nat × List String × Option String
  | [] => ([], [], none)
  | h :: rest =>
    match h.outcome with
    | .ok =>
        let r := drainHandlers rest
        (h.id :: r.1, r.2.1, r.2.2)
    | .raisesException m =>
        let r := drainHandlers rest
        (h.id :: r.1, ("Error in cancellation handler: " ++ m) :: r.2.1, r.2.2)
    | .raisesBaseException m => ([h.id], [], some m)

/-- How one signal delivery terminates: the `raise CancellationRequested`
at the end of the handler, or a BaseException escaping the drain loop. -/
inductive DeliveryResult where
  | cancellationRequested (msg : String)
  | baseExceptionEscape (msg : String)
deriving DecidableEq, Repr

/-- Everything observable about one run of `_handle_cancellation_signal`:
the lines sent to the `warning` sink, the ids of the invoked callbacks in
order, and how the run terminated. -/
structure DeliveryOutcome where
  warnings : List String
  invoked : List Nat
  result : DeliveryResult
deriving DecidableEq, Repr

/-- `_handle_cancellation_signal(signum, frame)`: emit the received-signal
warning, drain the registered handlers, then raise `CancellationRequested`
naming the signal (unless a BaseException escaped the drain first).  The
function mutates none of the module globals. -/
def handle_cancellation_signal (sig : Sig) (handlers : List Handler) : DeliveryOutcome :=
  let signal_name := sigName sig
  let r := drainHandlers handlers
  { warnings := ("Received " ++ signal_name ++ " signal. Initiating graceful shutdown...") :: r.2.1
    invoked := r.1
    result :=
      match r.2.2 with
      | some m => .baseExceptionEscape m
      | none => .cancellationRequested ("Operation cancelled by " ++ signal_name ++ " signal") }

/-- `register_cancellation_handler(handler)`: `_cancellation_handlers.append(handler)`. -/
def register_cancellation_handler (handler : Handler) (s : CancellationState) :
    CancellationState :=
  { s with cancellation_handlers := s.cancellation_handlers ++ [handler] }

/-- `enable_cancellation_support()`: if already registered, return; else for
SIGTERM then SIGINT, capture the current disposition into
`_original_handlers` while installing `_handle_cancellation_signal`, and set
the registered flag. -/
def enable_cancellation_support (s : CancellationState) : CancellationState :=
  if s.cancellation_registered = true then s
  else
    let oldTerm := s.termDisposition
    let s1 := setDisposition s .sigterm .cancellationSignalHandler
    let s2 := { s1 with original_handlers := dictSet s1.original_handlers .sigterm oldTerm }
    let oldInt := s2.intDisposition
    let s3 := setDisposition s2 .sigint .cancellationSignalHandler
    let s4 := { s3 with original_handlers := dictSet s3.original_handlers .sigint oldInt }
    { s4 with cancellation_registered := true }

/-- One iteration of the restore loop in `disable_cancellation_support`:
`if original_handler is not None: signal.signal(sig, original_handler)`. -/
def restoreStep (st : CancellationState) (p : Sig × Option PyHandler) : CancellationState :=
  match p.2 with
  | some h => setDisposition st p.1 h
  | none => st

/-- `disable_cancellation_support()`: if not registered, return; else
reinstall every non-None captured disposition, clear `_original_handlers`,
and clear the registered flag. -/
def disable_cancellation_support (s : CancellationState) : CancellationState :=
  if s.cancellation_registered = true then
    let s1 := s.original_handlers.foldl restoreStep s
    { s1 with original_handlers := [], cancellation_registered := false }
  else s

/-- `is_cancellation_enabled()`: returns `_cancellation_registered`. -/
def is_cancellation_enabled (s : CancellationState) : Bool :=
  s.cancellation_registered

/-- Delivery of a tracked signal dispatches on the installed disposition:
`_handle_cancellation_signal` runs exactly when it is the installed handler
for that signal. -/
def deliverSignal (s : CancellationState) (sig : Sig) : Option DeliveryOutcome :=
  if getDisposition s sig = some .cancellationSignalHandler then
    some (handle_cancellation_signal sig s.cancellation_handlers)
  else none

/-- The public operations of the module, for stating state-machine facts. -/
inductive Op where
  | register (h : Handler)
  | enable
  | disable
  | deliver (sig : Sig)
deriving DecidableEq, Repr

/-- Effect of one public operation on the module state.  A delivery leaves
the state unchanged: `_handle_cancellation_signal` reads
`_cancellation_handlers` but assigns to no module global. -/
def applyOp (s : CancellationState) : Op → CancellationState
  | .register h => register_cancellation_handler h s
  | .enable => enable_cancellation_support s
  | .disable => disable_cancellation_support s
  | .deliver _ => s

/-- Run a sequence of public operations. -/
def runOps (ops : List Op) (s : CancellationState) : CancellationState :=
  ops.foldl applyOp s

/-- The module state at import time: empty registry, empty capture dict,
flag false; the pre-existing process dispositions are parameters. -/
def mkInitialState (t i : Option PyHandler) : CancellationState :=
  { cancellation_handlers := []
    original_handlers := []
    cancellation_registered := false
    termDisposition := t
    intDisposition := i }

/-- A state the module can actually be in: reached from some import-time
state by some sequence of public operations. -/
def Reachable (s : CancellationState) : Prop :=
  ∃ ops t i, runOps ops (mkInitialState t i) = s

/-- The handlers registered by a sequence of operations, in order. -/
def registrationsOf : List Op → List Handler
  | [] => []
  | .register h :: rest => h :: registrationsOf rest
  | _ :: rest => registrationsOf rest

/-- The warnings the drain loop emits for a handler list with no escaping
BaseException: one line per Exception-raising callback, in order. -/
def handlerWarnings (hs : List Handler) : List String :=
  hs.filterMap fun x =>
    match x.outcome with
    | .raisesException m => some ("Error in cancellation handler: " ++ m)
    | _ => none

/-- The state-machine invariant of the spec: the enabled flag is true iff
the capture dict holds an entry for every tracked signal, and the dict is
empty while disabled. -/
def controllerInvariant (s : CancellationState) : Prop :=
  (s.cancellation_registered = true ↔
    ((dictLookup s.original_handlers .sigterm).isSome = true ∧
      (dictLookup s.original_handlers .sigint).isSome = true)) ∧
  (s.cancellation_registered = false → s.original_handlers = [])

/-- Strengthened invariant used for the proofs: additionally, while enabled
the installed disposition of both tracked signals is the controller handler. -/
def fullInvariant (s : CancellationState) : Prop :=
  controllerInvariant s ∧
  (s.cancellation_registered = true →
    s.termDisposition = some .cancellationSignalHandler ∧
    s.intDisposition = some .cancellationSignalHandler)

/-! Field-preservation lemmas: `setDisposition` and the restore loop touch
only the disposition fields. -/

lemma setDisposition_handlers (s : CancellationState) (sig : Sig) (h : PyHandler) :
    (setDisposition s sig h).cancellation_handlers = s.cancellation_handlers := by
  cases sig <;> rfl

lemma setDisposition_original (s : CancellationState) (sig : Sig) (h : PyHandler) :
    (setDisposition s sig h).original_handlers = s.original_handlers := by
  cases sig <;> rfl

lemma setDisposition_registered (s : CancellationState) (sig : Sig) (h : PyHandler) :
    (setDisposition s sig h).cancellation_registered = s.cancellation_registered := by
  cases sig <;> rfl

lemma restoreStep_handlers (st : CancellationState) (p : Sig × Option PyHandler) :
    (restoreStep st p).cancellation_handlers = st.cancellation_handlers := by
  rcases p with ⟨k, v⟩
  cases v with
  | none => rfl
  | some h => simpa [restoreStep] using setDisposition_handlers st k h

lemma foldl_restoreStep_handlers :
    ∀ (l : List (Sig × Option PyHandler)) (st : CancellationState),
      (l.foldl restoreStep st).cancellation_handlers = st.cancellation_handlers := by
  intro l
  induction l with
  | nil => intro st; rfl
  | cons p rest ih =>
    intro st
    rw [List.foldl_cons, ih, restoreStep_handlers]

/-! Basic facts about `enable_cancellation_support` and
`disable_cancellation_support`. -/

lemma enable_registered (s : CancellationState) :
    (enable_cancellation_support s).cancellation_registered = true := by
  by_cases h : s.cancellation_registered = true
  · simp [enable_cancellation_support, h]
  · simp [enable_cancellation_support, h]

lemma enable_handlers (s : CancellationState) :
    (enable_cancellation_support s).cancellation_handlers = s.cancellation_handlers := by
  by_cases h : s.cancellation_registered = true
  · simp [enable_cancellation_support, h]
  · simp [enable_cancellation_support, h, setDisposition]

lemma enable_eq_of_registered (s : CancellationState)
    (h : s.cancellation_registered = true) : enable_cancellation_support s = s := by
  simp [enable_cancellation_support, h]

lemma enable_eq_of_not_registered (s : CancellationState)
    (h : s.cancellation_registered = false) :
    enable_cancellation_support s =
      { s with
        original_handlers :=
          dictSet (dictSet s.original_handlers .sigterm s.termDisposition) .sigint
            s.intDisposition
        cancellation_registered := true
        termDisposition := some .cancellationSignalHandler
        intDisposition := some .cancellationSignalHandler } := by
  simp [enable_cancellation_support, h, setDisposition]

lemma disable_registered (s : CancellationState) :
    (disable_cancellation_support s).cancellation_registered = false := by
  by_cases h : s.cancellation_registered = true
  · simp [disable_cancellation_support, h]
  · simp [disable_cancellation_support, h]

lemma disable_eq_of_not_registered (s : CancellationState)
    (h : s.cancellation_registered = false) : disable_cancellation_support s = s := by
  simp [disable_cancellation_support, h]

lemma disable_handlers (s : CancellationState) :
    (disable_cancellation_support s).cancellation_handlers = s.cancellation_handlers := by
  by_cases h : s.cancellation_registered = true
  · simp [disable_cancellation_support, h, foldl_restoreStep_handlers]
  · simp [disable_cancellation_support, h]

/-! The drain loop on handler lists without an escaping BaseException. -/

lemma drainHandlers_no_base :
    ∀ (hs : List Handler), (∀ x ∈ hs, isBaseRaise x.outcome = false) →
      drainHandlers hs = (hs.map (fun h => h.id), handlerWarnings hs, none) := by
  intro hs
  induction hs with
  | nil => intro _; rfl
  | cons a rest ih =>
    intro h
    have ha : isBaseRaise a.outcome = false := h a (List.mem_cons_self a rest)
    have hr := ih fun x hx => h x (List.mem_cons_of_mem a hx)
    cases hout : a.outcome with
    | ok => simp [drainHandlers, hout, hr, handlerWarnings]
    | raisesException m => simp [drainHandlers, hout, hr, handlerWarnings]
    | raisesBaseException m => rw [hout] at ha; simp [isBaseRaise] at ha

lemma drainHandlers_base_escape :
    ∀ (pre : List Handler) (h : Handler) (post : List Handler) (m : String),
      (∀ x ∈ pre, isBaseRaise x.outcome = false) →
      h.outcome = .raisesBaseException m →
      drainHandlers (pre ++ h :: post) =
        (pre.map (fun x => x.id) ++ [h.id], handlerWarnings pre, some m) := by
  intro pre
  induction pre with
  | nil => intro h post m _ hh; simp [drainHandlers, hh, handlerWarnings]
  | cons a rest ih =>
    intro h post m hpre hh
    have ha := hpre a (List.mem_cons_self a rest)
    have hr := ih h post m (fun x hx => hpre x (List.mem_cons_of_mem a hx)) hh
    cases hout : a.outcome with
    | ok => simp [drainHandlers, hout, hr, handlerWarnings]
    | raisesException m2 => simp [drainHandlers, hout, hr, handlerWarnings]
    | raisesBaseException m2 => rw [hout] at ha; simp [isBaseRaise] at ha

/-! The registry under sequences of public operations. -/

lemma applyOp_handlers (s : CancellationState) (op : Op) :
    (applyOp s op).cancellation_handlers =
      s.cancellation_handlers ++ registrationsOf [op] := by
  cases op with
  | register h => simp [applyOp, register_cancellation_handler, registrationsOf]
  | enable => simp [applyOp, enable_handlers, registrationsOf]
  | disable => simp [applyOp, disable_handlers, registrationsOf]
  | deliver sig => simp [applyOp, registrationsOf]

lemma runOps_handlers :
    ∀ (ops : List Op) (s : CancellationState),
      (runOps ops s).cancellation_handlers =
        s.cancellation_handlers ++ registrationsOf ops := by
  intro ops
  induction ops with
  | nil => intro s; simp [runOps, registrationsOf]
  | cons op rest ih =>
    intro s
    have hstep : runOps (op :: rest) s = runOps rest (applyOp s op) := rfl
    rw [hstep, ih, applyOp_handlers]
    cases op <;> simp [registrationsOf]

/-! Preservation of the state-machine invariant. -/

lemma fullInvariant_applyOp (s : CancellationState) (op : Op)
    (h : fullInvariant s) : fullInvariant (applyOp s op) := by
  cases op with
  | register hd =>
    simpa [applyOp, register_cancellation_handler, fullInvariant, controllerInvariant]
      using h
  | deliver sig => exact h
  | enable =>
    by_cases hr : s.cancellation_registered = true
    · simpa [applyOp, enable_eq_of_registered s hr] using h
    · have hr' : s.cancellation_registered = false := by simpa using hr
      have hempty : s.original_handlers = [] := h.1.2 hr'
      have : applyOp s .enable = enable_cancellation_support s := rfl
      rw [this, enable_eq_of_not_registered s hr']
      simp [fullInvariant, controllerInvariant, hempty, dictSet, dictLookup]
  | disable =>
    by_cases hr : s.cancellation_registered = true
    · simp [applyOp, disable_cancellation_support, hr, fullInvariant,
        controllerInvariant, dictLookup]
    · have hr' : s.cancellation_registered = false := by simpa using hr
      simpa [applyOp, disable_eq_of_not_registered s hr'] using h

lemma fullInvariant_runOps :
    ∀ (ops : List Op) (s : CancellationState),
      fullInvariant s → fullInvariant (runOps ops s) := by
  intro ops
  induction ops with
  | nil => intro s h; exact h
  | cons op rest ih =>
    intro s h
    exact ih (applyOp s op) (fullInvariant_applyOp s op h)

lemma fullInvariant_initial (t i : Option PyHandler) :
    fullInvariant (mkInitialState t i) := by
  simp [fullInvariant, controllerInvariant, mkInitialState, dictLookup]

lemma fullInvariant_reachable (s : CancellationState) (h : Reachable s) :
    fullInvariant s := by
  obtain ⟨ops, t, i, rfl⟩ := h
  exact fullInvariant_runOps ops (mkInitialState t i) (fullInvariant_initial t i)

lemma reachable_enabled_disposition (s : CancellationState) (sig : Sig)
    (hs : Reachable s) (he : s.cancellation_registered = true) :
    getDisposition s sig = some .cancellationSignalHandler := by
  have h := (fullInvariant_reachable s hs).2 he
  cases sig with
  | sigterm => simpa [getDisposition] using h.1
  | sigint => simpa [getDisposition] using h.2

/-- Claim C1: if the handler at some position raises an Exception during
signal delivery, the fault is caught inside the drain, a warning naming the
failure is emitted, every handler at a later position is still invoked, and
the CancellationRequested condition is still raised afterward. -/
theorem claim_C1 (sig : Sig) (pre : List Handler) (h : Handler) (post : List Handler)
    (m : String)
    (hout : h.outcome = .raisesException m)
    (hnb : ∀ x ∈ pre ++ h :: post, isBaseRaise x.outcome = false) :
    ("Error in cancellation handler: " ++ m) ∈
        (handle_cancellation_signal sig (pre ++ h :: post)).warnings ∧
    (handle_cancellation_signal sig (pre ++ h :: post)).invoked =
        (pre ++ h :: post).map (fun x => x.id) ∧
    (handle_cancellation_signal sig (pre ++ h :: post)).result =
      .cancellationRequested ("Operation cancelled by " ++ sigName sig ++ " signal") := by
  have hd := drainHandlers_no_base (pre ++ h :: post) hnb
  have hmem : ("Error in cancellation handler: " ++ m) ∈
      handlerWarnings (pre ++ h :: post) := by
    unfold handlerWarnings
    exact List.mem_filterMap.mpr ⟨h, by simp, by rw [hout]⟩
  refine ⟨?_, ?_, ?_⟩
  · simp only [handle_cancellation_signal, hd, List.mem_cons]
    exact Or.inr hmem
  · simp [handle_cancellation_signal, hd]
  · simp [handle_cancellation_signal, hd]

theorem claim_C1_witness :
    ((⟨2, .raisesException "boom"⟩ : Handler).outcome =
        HandlerOutcome.raisesException "boom") ∧
    (∀ x ∈ ([⟨1, .ok⟩] : List Handler) ++ (⟨2, .raisesException "boom"⟩ : Handler) ::
        ([⟨3, .ok⟩] : List Handler), isBaseRaise x.outcome = false) ∧
    (("Error in cancellation handler: " ++ "boom") ∈
        (handle_cancellation_signal .sigterm (([⟨1, .ok⟩] : List Handler) ++
          (⟨2, .raisesException "boom"⟩ : Handler) ::
            ([⟨3, .ok⟩] : List Handler))).warnings ∧
      (handle_cancellation_signal .sigterm (([⟨1, .ok⟩] : List Handler) ++
          (⟨2, .raisesException "boom"⟩ : Handler) ::
            ([⟨3, .ok⟩] : List Handler))).invoked =
        ((([⟨1, .ok⟩] : List Handler) ++ (⟨2, .raisesException "boom"⟩ : Handler) ::
            ([⟨3, .ok⟩] : List Handler)).map (fun x => x.id)) ∧
      (handle_cancellation_signal .sigterm (([⟨1, .ok⟩] : List Handler) ++
          (⟨2, .raisesException "boom"⟩ : Handler) ::
            ([⟨3, .ok⟩] : List Handler))).result =
        .cancellationRequested ("Operation cancelled by " ++ sigName .sigterm ++ " signal")) :=
  ⟨rfl, by decide,
    claim_C1 .sigterm [⟨1, .ok⟩] ⟨2, .raisesException "boom"⟩ [⟨3, .ok⟩] "boom" rfl
      (by decide)⟩

/-- Claim C2: one delivery of a tracked signal while enabled runs the
controller handler, which invokes each registered entry exactly once in
registration order (a callback registered k times appears k times), and
registration itself never fails and just appends. -/
theorem claim_C2 (s : CancellationState) (sig : Sig)
    (hreach : Reachable s) (hen : is_cancellation_enabled s = true)
    (hnb : ∀ x ∈ s.cancellation_handlers, isBaseRaise x.outcome = false) :
    deliverSignal s sig = some (handle_cancellation_signal sig s.cancellation_handlers) ∧
    (handle_cancellation_signal sig s.cancellation_handlers).invoked =
      s.cancellation_handlers.map (fun h => h.id) ∧
    ∀ (h : Handler) (t : CancellationState),
      (register_cancellation_handler h t).cancellation_handlers =
        t.cancellation_handlers ++ [h] := by
  have hdisp := reachable_enabled_disposition s sig hreach
    (by simpa [is_cancellation_enabled] using hen)
  have hd := drainHandlers_no_base s.cancellation_handlers hnb
  exact ⟨by simp [deliverSignal, hdisp], by simp [handle_cancellation_signal, hd],
    fun h t => rfl⟩

theorem claim_C2_witness :
    Reachable (runOps [.enable, .register ⟨1, .ok⟩, .register ⟨1, .ok⟩]
      (mkInitialState (some .sigDfl) (some .sigDfl))) ∧
    is_cancellation_enabled (runOps [.enable, .register ⟨1, .ok⟩, .register ⟨1, .ok⟩]
      (mkInitialState (some .sigDfl) (some .sigDfl))) = true ∧
    (∀ x ∈ (runOps [.enable, .register ⟨1, .ok⟩, .register ⟨1, .ok⟩]
        (mkInitialState (some .sigDfl) (some .sigDfl))).cancellation_handlers,
      isBaseRaise x.outcome = false) ∧
    (handle_cancellation_signal .sigterm
        (runOps [.enable, .register ⟨1, .ok⟩, .register ⟨1, .ok⟩]
          (mkInitialState (some .sigDfl) (some .sigDfl))).cancellation_handlers).invoked =
      ((runOps [.enable, .register ⟨1, .ok⟩, .register ⟨1, .ok⟩]
        (mkInitialState (some .sigDfl) (some .sigDfl))).cancellation_handlers.map
          (fun h => h.id)) := by
  have h := claim_C2 (runOps [.enable, .register ⟨1, .ok⟩, .register ⟨1, .ok⟩]
      (mkInitialState (some .sigDfl) (some .sigDfl))) .sigterm
    ⟨_, _, _, rfl⟩ (by decide) (by decide)
  exact ⟨⟨_, _, _, rfl⟩, by decide, by decide, h.2.1⟩

/-- Claim C3: delivery of a tracked signal while enabled always raises the
CancellationRequested condition after the drain, with a message text
containing the name of the triggering signal. -/
theorem claim_C3 (s : CancellationState) (sig : Sig)
    (hreach : Reachable s) (hen : is_cancellation_enabled s = true)
    (hnb : ∀ x ∈ s.cancellation_handlers, isBaseRaise x.outcome = false) :
    ∃ out, deliverSignal s sig = some out ∧
      out.result = .cancellationRequested
        ("Operation cancelled by " ++ sigName sig ++ " signal") ∧
      ∃ a b, "Operation cancelled by " ++ sigName sig ++ " signal" =
        a ++ sigName sig ++ b := by
  have hdisp := reachable_enabled_disposition s sig hreach
    (by simpa [is_cancellation_enabled] using hen)
  have hd := drainHandlers_no_base s.cancellation_handlers hnb
  exact ⟨handle_cancellation_signal sig s.cancellation_handlers,
    by simp [deliverSignal, hdisp], by simp [handle_cancellation_signal, hd],
    "Operation cancelled by ", " signal", rfl⟩

theorem claim_C3_witness :
    Reachable (runOps [.register ⟨5, .raisesException "late"⟩, .enable]
      (mkInitialState none (some .sigIgn))) ∧
    is_cancellation_enabled (runOps [.register ⟨5, .raisesException "late"⟩, .enable]
      (mkInitialState none (some .sigIgn))) = true ∧
    (∀ x ∈ (runOps [.register ⟨5, .raisesException "late"⟩, .enable]
        (mkInitialState none (some .sigIgn))).cancellation_handlers,
      isBaseRaise x.outcome = false) ∧
    (∃ out, deliverSignal (runOps [.register ⟨5, .raisesException "late"⟩, .enable]
        (mkInitialState none (some .sigIgn))) .sigint = some out ∧
      out.result = .cancellationRequested
        ("Operation cancelled by " ++ sigName .sigint ++ " signal") ∧
      ∃ a b, "Operation cancelled by " ++ sigName .sigint ++ " signal" =
        a ++ sigName .sigint ++ b) :=
  ⟨⟨_, _, _, rfl⟩, by decide, by decide,
    claim_C3 (runOps [.register ⟨5, .raisesException "late"⟩, .enable]
        (mkInitialState none (some .sigIgn))) .sigint
      ⟨_, _, _, rfl⟩ (by decide) (by decide)⟩

/-- Claim C4: enable_cancellation_support is idempotent: a second enable is a
no-op that leaves the enabled flag true and, not having re-captured, makes a
later disable behave exactly as after a single enable. -/
theorem claim_C4 (s : CancellationState) :
    enable_cancellation_support (enable_cancellation_support s) =
      enable_cancellation_support s ∧
    is_cancellation_enabled (enable_cancellation_support s) = true ∧
    disable_cancellation_support
        (enable_cancellation_support (enable_cancellation_support s)) =
      disable_cancellation_support (enable_cancellation_support s) := by
  have h1 : enable_cancellation_support (enable_cancellation_support s) =
      enable_cancellation_support s :=
    enable_eq_of_registered _ (enable_registered s)
  exact ⟨h1, by simpa [is_cancellation_enabled] using enable_registered s, by rw [h1]⟩

/-- Claim C5: from a disabled state whose tracked dispositions are observable,
enable followed by disable restores each tracked signal disposition to the
exact pre-enable value and clears the capture dict. -/
theorem claim_C5 (s : CancellationState)
    (hreg : s.cancellation_registered = false)
    (hmap : s.original_handlers = [])
    (ht : s.termDisposition.isSome = true)
    (hi : s.intDisposition.isSome = true) :
    (disable_cancellation_support (enable_cancellation_support s)).termDisposition =
      s.termDisposition ∧
    (disable_cancellation_support (enable_cancellation_support s)).intDisposition =
      s.intDisposition ∧
    (disable_cancellation_support (enable_cancellation_support s)).original_handlers =
      [] ∧
    (disable_cancellation_support
        (enable_cancellation_support s)).cancellation_registered = false := by
  obtain ⟨th, hth⟩ := Option.isSome_iff_exists.mp ht
  obtain ⟨ih, hih⟩ := Option.isSome_iff_exists.mp hi
  rw [enable_eq_of_not_registered s hreg]
  simp [hmap, hth, hih, dictSet, disable_cancellation_support, restoreStep,
    setDisposition]

theorem claim_C5_witness :
    (CancellationState.mk [] [] false (some (.pyCallable 7))
        (some .sigIgn)).cancellation_registered = false ∧
    (CancellationState.mk [] [] false (some (.pyCallable 7))
        (some .sigIgn)).original_handlers = [] ∧
    (CancellationState.mk [] [] false (some (.pyCallable 7))
        (some .sigIgn)).termDisposition.isSome = true ∧
    (CancellationState.mk [] [] false (some (.pyCallable 7))
        (some .sigIgn)).intDisposition.isSome = true ∧
    ((disable_cancellation_support (enable_cancellation_support
        (CancellationState.mk [] [] false (some (.pyCallable 7))
          (some .sigIgn)))).termDisposition =
      (CancellationState.mk [] [] false (some (.pyCallable 7))
        (some .sigIgn)).termDisposition ∧
    (disable_cancellation_support (enable_cancellation_support
        (CancellationState.mk [] [] false (some (.pyCallable 7))
          (some .sigIgn)))).intDisposition =
      (CancellationState.mk [] [] false (some (.pyCallable 7))
        (some .sigIgn)).intDisposition ∧
    (disable_cancellation_support (enable_cancellation_support
        (CancellationState.mk [] [] false (some (.pyCallable 7))
          (some .sigIgn)))).original_handlers = [] ∧
    (disable_cancellation_support (enable_cancellation_support
        (CancellationState.mk [] [] false (some (.pyCallable 7))
          (some .sigIgn)))).cancellation_registered = false) :=
  ⟨rfl, rfl, rfl, rfl,
    claim_C5 (CancellationState.mk [] [] false (some (.pyCallable 7)) (some .sigIgn))
      rfl rfl rfl rfl⟩

/-- Claim C6: disable_cancellation_support is idempotent: while enabled it
restores the captured dispositions and clears the flag; while disabled it is
a no-op; two disables in a row are safe and leave the state disabled both
times. -/
theorem claim_C6 (s : CancellationState) :
    (s.cancellation_registered = false → disable_cancellation_support s = s) ∧
    (s.cancellation_registered = true →
      disable_cancellation_support s =
        { s.original_handlers.foldl restoreStep s with
            original_handlers := [], cancellation_registered := false }) ∧
    is_cancellation_enabled (disable_cancellation_support s) = false ∧
    disable_cancellation_support (disable_cancellation_support s) =
      disable_cancellation_support s ∧
    is_cancellation_enabled
        (disable_cancellation_support (disable_cancellation_support s)) = false := by
  refine ⟨disable_eq_of_not_registered s, ?_, ?_, ?_, ?_⟩
  · intro h; simp [disable_cancellation_support, h]
  · simpa [is_cancellation_enabled] using disable_registered s
  · exact disable_eq_of_not_registered _ (disable_registered s)
  · simpa [is_cancellation_enabled] using
      disable_registered (disable_cancellation_support s)

theorem claim_C6_witness :
    disable_cancellation_support (disable_cancellation_support
        (mkInitialState (some .sigDfl) none)) =
      disable_cancellation_support (mkInitialState (some .sigDfl) none) ∧
    is_cancellation_enabled (disable_cancellation_support
        (mkInitialState (some .sigDfl) none)) = false :=
  ⟨(claim_C6 (mkInitialState (some .sigDfl) none)).2.2.2.1,
    (claim_C6 (mkInitialState (some .sigDfl) none)).2.2.1⟩

/-- Claim C7: every sequence of public operations from an import-time state
preserves the invariant: the enabled flag is true iff the capture dict holds
an entry for both tracked signals, and the dict is empty while disabled. -/
theorem claim_C7 (ops : List Op) (t i : Option PyHandler) :
    controllerInvariant (runOps ops (mkInitialState t i)) :=
  (fullInvariant_runOps ops (mkInitialState t i) (fullInvariant_initial t i)).1

/-- Claim C8: the handler registry is never cleared or shrunk: after any
sequence of public operations from an import-time state, the registry equals
exactly the sequence of registrations performed, in order. -/
theorem claim_C8 (ops : List Op) (t i : Option PyHandler) :
    (runOps ops (mkInitialState t i)).cancellation_handlers = registrationsOf ops := by
  simpa [mkInitialState] using runOps_handlers ops (mkInitialState t i)

/-- Claim C9: if the disposition captured for a tracked signal at enable time
is None, disable skips reinstalling a disposition for that signal (the
controller handler stays installed) but still clears the capture dict and
reports the disabled state. -/
theorem claim_C9 (s : CancellationState) (sig : Sig)
    (hreg : s.cancellation_registered = false)
    (hmap : s.original_handlers = [])
    (hnone : getDisposition s sig = none) :
    getDisposition (disable_cancellation_support (enable_cancellation_support s)) sig =
      some .cancellationSignalHandler ∧
    (disable_cancellation_support (enable_cancellation_support s)).original_handlers =
      [] ∧
    is_cancellation_enabled
        (disable_cancellation_support (enable_cancellation_support s)) = false := by
  rw [enable_eq_of_not_registered s hreg]
  cases sig with
  | sigterm =>
    have h : s.termDisposition = none := by simpa [getDisposition] using hnone
    cases hint : s.intDisposition with
    | none =>
      simp [hmap, h, hint, dictSet, disable_cancellation_support, restoreStep,
        getDisposition, is_cancellation_enabled]
    | some v =>
      simp [hmap, h, hint, dictSet, disable_cancellation_support, restoreStep,
        setDisposition, getDisposition, is_cancellation_enabled]
  | sigint =>
    have h : s.intDisposition = none := by simpa [getDisposition] using hnone
    cases hterm : s.termDisposition with
    | none =>
      simp [hmap, h, hterm, dictSet, disable_cancellation_support, restoreStep,
        getDisposition, is_cancellation_enabled]
    | some v =>
      simp [hmap, h, hterm, dictSet, disable_cancellation_support, restoreStep,
        setDisposition, getDisposition, is_cancellation_enabled]

theorem claim_C9_witness :
    (CancellationState.mk [] [] false none (some .sigDfl)).cancellation_registered =
      false ∧
    (CancellationState.mk [] [] false none (some .sigDfl)).original_handlers = [] ∧
    getDisposition (CancellationState.mk [] [] false none (some .sigDfl)) .sigterm =
      none ∧
    (getDisposition (disable_cancellation_support (enable_cancellation_support
        (CancellationState.mk [] [] false none (some .sigDfl)))) .sigterm =
      some .cancellationSignalHandler ∧
    (disable_cancellation_support (enable_cancellation_support
        (CancellationState.mk [] [] false none
          (some .sigDfl)))).original_handlers = [] ∧
    is_cancellation_enabled (disable_cancellation_support (enable_cancellation_support
        (CancellationState.mk [] [] false none (some .sigDfl)))) = false) :=
  ⟨rfl, rfl, rfl,
    claim_C9 (CancellationState.mk [] [] false none (some .sigDfl)) .sigterm
      rfl rfl rfl⟩

/-- Claim C10: failure isolation covers only Exception-derived faults: a
handler raising a non-Exception BaseException makes the fault escape the
drain at once, the handlers registered after it do not run, and
CancellationRequested is not raised. -/
theorem claim_C10 (sig : Sig) (pre : List Handler) (h : Handler) (post : List Handler)
    (m : String)
    (hout : h.outcome = .raisesBaseException m)
    (hnb : ∀ x ∈ pre, isBaseRaise x.outcome = false) :
    (handle_cancellation_signal sig (pre ++ h :: post)).invoked =
      pre.map (fun x => x.id) ++ [h.id] ∧
    (handle_cancellation_signal sig (pre ++ h :: post)).result =
      .baseExceptionEscape m ∧
    ∀ m', (handle_cancellation_signal sig (pre ++ h :: post)).result ≠
      .cancellationRequested m' := by
  have hd := drainHandlers_base_escape pre h post m hnb hout
  refine ⟨by simp [handle_cancellation_signal, hd],
    by simp [handle_cancellation_signal, hd], ?_⟩
  intro m'
  simp [handle_cancellation_signal, hd]

theorem claim_C10_witness :
    ((⟨2, .raisesBaseException "exit"⟩ : Handler).outcome =
        HandlerOutcome.raisesBaseException "exit") ∧
    (∀ x ∈ ([⟨1, .ok⟩] : List Handler), isBaseRaise x.outcome = false) ∧
    ((handle_cancellation_signal .sigint (([⟨1, .ok⟩] : List Handler) ++
        (⟨2, .raisesBaseException "exit"⟩ : Handler) ::
          ([⟨3, .ok⟩] : List Handler))).invoked =
      (([⟨1, .ok⟩] : List Handler).map (fun x => x.id)) ++ [2] ∧
    (handle_cancellation_signal .sigint (([⟨1, .ok⟩] : List Handler) ++
        (⟨2, .raisesBaseException "exit"⟩ : Handler) ::
          ([⟨3, .ok⟩] : List Handler))).result =
      .baseExceptionEscape "exit") := by
  have h := claim_C10 .sigint [⟨1, .ok⟩] ⟨2, .raisesBaseException "exit"⟩ [⟨3, .ok⟩]
    "exit" rfl (by decide)
  exact ⟨rfl, by decide, h.1, h.2.1⟩

end SignalHandling
